import Mathlib

/-!
Shallow embedding of `src/store/gameStore.ts` (zustand game store of a
quiz game).  TypeScript numbers that can be negative or compared with
list lengths are modelled as `Int`; array indices and counters that the
code only ever sets to non-negative values are `Nat`.  The two sources of
nondeterminism — the random room id in `createRoom` and the random
shuffle `sort(() => 0.5 - Math.random())` in `startGame`/`nextQuestion` —
are passed in as explicit parameters (`newId`, `shuffle`), and the
question catalogue `mockQuestions` (imported from `../data/questions`,
outside the store file) is likewise a parameter.  JavaScript object maps
(`room.scores`) are association lists with update-in-place-or-append
semantics, matching `{ ...scores, [id]: v }`.
-/

namespace GameStore

/-- `User` from `../types/game`: only `id` and `name` matter to the store. -/
structure User where
  id : String
  name : String
deriving Repr, DecidableEq

/-- `GameState` union type: `'waiting' | 'playing' | 'finished'`. -/
inductive GameState where
  | waiting
  | playing
  | finished
deriving Repr, DecidableEq

/-- `Question` from `../types/game`; `difficulty` and `category` are the
string literals the TS union types compile to. -/
structure Question where
  id : String
  text : String
  options : List String
  correctAnswer : Nat
  category : String
  difficulty : String
  points : Int
deriving Repr, DecidableEq

/-- `PlayerAnswer` record as built in `submitAnswer`. -/
structure PlayerAnswer where
  playerId : String
  answerIndex : Nat
  timeSpent : Int
  isCorrect : Bool
  points : Int
deriving Repr, DecidableEq

/-- The `scores` object of a room: JS object keyed by user id. -/
abbrev Scores := List (String × Int)

/-- Read `scores[id]`: `none` models JS `undefined`. -/
def scoreGet (sc : Scores) (k : String) : Option Int :=
  (sc.find? (fun p => p.1 == k)).map (fun p => p.2)

/-- `{ ...scores, [id]: v }`: replace the existing entry in place, else append. -/
def scoreSet (sc : Scores) (k : String) (v : Int) : Scores :=
  if sc.any (fun p => p.1 == k) then
    sc.map (fun p => if p.1 == k then (k, v) else p)
  else
    sc ++ [(k, v)]

/-- `GameRoom` from `../types/game`. -/
structure GameRoom where
  id : String
  name : String
  players : List User
  maxPlayers : Int
  isPrivate : Bool
  gameState : GameState
  questionIndex : Nat
  timeRemaining : Int
  scores : Scores
deriving Repr, DecidableEq

/-- `GameSettings`: `difficulty` is `"mixed"` or a concrete difficulty string. -/
structure GameSettings where
  questionsPerGame : Nat
  timePerQuestion : Int
  difficulty : String
  categories : List String
deriving Repr, DecidableEq

/-- `Partial<GameSettings>` argument of `setGameSettings`. -/
structure PartialGameSettings where
  questionsPerGame : Option Nat := none
  timePerQuestion : Option Int := none
  difficulty : Option String := none
  categories : Option (List String) := none
deriving Repr, DecidableEq

/-- `defaultGameSettings` constant (gameStore.ts lines 37–42). -/
def defaultGameSettings : GameSettings :=
  { questionsPerGame := 10
    timePerQuestion := 30
    difficulty := "mixed"
    categories := ["recycling", "biodiversity", "energy", "climate-change",
                   "sustainable-consumption", "pollution", "conservation"] }

/-- The state record held by the zustand store (fields of `GameStore`
minus the action closures). -/
structure GameStoreState where
  currentUser : Option User
  isAuthenticated : Bool
  currentRoom : Option GameRoom
  availableRooms : List GameRoom
  currentQuestion : Option Question
  playerAnswers : List PlayerAnswer
  gameSettings : GameSettings
  isLoading : Bool
  error : Option String
  showResults : Bool
deriving Repr, DecidableEq

/-- Initial state of the store (gameStore.ts lines 46–55). -/
def initialState : GameStoreState :=
  { currentUser := none
    isAuthenticated := false
    currentRoom := none
    availableRooms := []
    currentQuestion := none
    playerAnswers := []
    gameSettings := defaultGameSettings
    isLoading := false
    error := none
    showResults := false }

/-- `setUser` action. -/
def setUser (user : User) (s : GameStoreState) : GameStoreState :=
  { s with currentUser := some user, isAuthenticated := true }

/-- `logout` action. -/
def logout (s : GameStoreState) : GameStoreState :=
  { s with currentUser := none, isAuthenticated := false, currentRoom := none,
           currentQuestion := none, playerAnswers := [], showResults := false }

/-- `createRoom` action; `newId` stands for the random
`Math.random().toString(36).substr(2, 9)` id.  Silently returns the
unchanged state when no user is authenticated. -/
def createRoom (newId : String) (roomName : String) (maxPlayers : Int)
    (isPrivate : Bool) (s : GameStoreState) : GameStoreState :=
  match s.currentUser with
  | none => s
  | some currentUser =>
    let newRoom : GameRoom :=
      { id := newId
        name := roomName
        players := [currentUser]
        maxPlayers := maxPlayers
        isPrivate := isPrivate
        gameState := GameState.waiting
        questionIndex := 0
        timeRemaining := 0
        scores := [(currentUser.id, 0)] }
    { s with currentRoom := some newRoom,
             availableRooms := s.availableRooms ++ [newRoom] }

/-- `joinRoom` action: no-op without a user, without a matching room, or
when the room is at capacity; otherwise appends the user and writes the
updated room to both the active slot and the lobby list. -/
def joinRoom (roomId : String) (s : GameStoreState) : GameStoreState :=
  match s.currentUser with
  | none => s
  | some currentUser =>
    match s.availableRooms.find? (fun r => r.id == roomId) with
    | none => s
    | some room =>
      if (room.players.length : Int) ≥ room.maxPlayers then s
      else
        let updatedRoom : GameRoom :=
          { room with players := room.players ++ [currentUser],
                      scores := scoreSet room.scores currentUser.id 0 }
        { s with currentRoom := some updatedRoom,
                 availableRooms := s.availableRooms.map
                   (fun r => if r.id == roomId then updatedRoom else r) }

/-- `leaveRoom` action. -/
def leaveRoom (s : GameStoreState) : GameStoreState :=
  { s with currentRoom := none, currentQuestion := none,
           playerAnswers := [], showResults := false }

/-- The question filter shared by `startGame` and `nextQuestion`
(gameStore.ts lines 124–132 and 195–201): drop questions whose
difficulty differs from the setting unless it is `"mixed"`, then keep
only enabled categories. -/
def filterQuestions (gameSettings : GameSettings)
    (mockQuestions : List Question) : List Question :=
  let fq :=
    if gameSettings.difficulty ≠ "mixed" then
      mockQuestions.filter (fun q => q.difficulty == gameSettings.difficulty)
    else mockQuestions
  fq.filter (fun q => gameSettings.categories.contains q.category)

/-- `startGame` action.  `shuffle` models the in-place randomized
`sort(() => 0.5 - Math.random())`; `selectedQuestions[0] || null` becomes
`List.get? 0`. -/
def startGame (mockQuestions : List Question)
    (shuffle : List Question → List Question) (s : GameStoreState) :
    GameStoreState :=
  match s.currentRoom with
  | none => s
  | some currentRoom =>
    let filteredQuestions := filterQuestions s.gameSettings mockQuestions
    let shuffled := shuffle filteredQuestions
    let selectedQuestions := shuffled.take s.gameSettings.questionsPerGame
    let updatedRoom : GameRoom :=
      { currentRoom with gameState := GameState.playing, questionIndex := 0,
                         timeRemaining := s.gameSettings.timePerQuestion }
    { s with currentRoom := some updatedRoom,
             currentQuestion := selectedQuestions.get? 0,
             playerAnswers := [] }

/-- `submitAnswer` action: scoring, answer log append, score-map update.
`(currentRoom.scores[id] || 0)` becomes `(scoreGet ..).getD 0` (the two
agree on every actual number: `0 || 0` is `0`). -/
def submitAnswer (answerIndex : Nat) (timeSpent : Int) (s : GameStoreState) :
    GameStoreState :=
  match s.currentUser, s.currentQuestion, s.currentRoom with
  | some currentUser, some currentQuestion, some currentRoom =>
    let isCorrect : Bool := answerIndex == currentQuestion.correctAnswer
    let timeBonus : Int := max 0 ((30 - timeSpent) * 2)
    let points : Int := if isCorrect then currentQuestion.points + timeBonus else 0
    let answer : PlayerAnswer :=
      { playerId := currentUser.id
        answerIndex := answerIndex
        timeSpent := timeSpent
        isCorrect := isCorrect
        points := points }
    let updatedScores :=
      scoreSet currentRoom.scores currentUser.id
        ((scoreGet currentRoom.scores currentUser.id).getD 0 + points)
    { s with playerAnswers := s.playerAnswers ++ [answer],
             currentRoom := some { currentRoom with scores := updatedScores },
             showResults := true }
  | _, _, _ => s

/-- `endGame` action. -/
def endGame (s : GameStoreState) : GameStoreState :=
  match s.currentRoom with
  | none => s
  | some currentRoom =>
    { s with currentRoom := some { currentRoom with gameState := GameState.finished },
             currentQuestion := none,
             showResults := true }

/-- `nextQuestion` action.  When the pool is empty the JS expression
`shuffled[nextIndex % shuffled.length]` indexes with `NaN` and yields
`undefined`; `List.get? (nextIndex % shuffled.length)` on the empty list
is likewise `none`. -/
def nextQuestion (mockQuestions : List Question)
    (shuffle : List Question → List Question) (s : GameStoreState) :
    GameStoreState :=
  match s.currentRoom with
  | none => s
  | some currentRoom =>
    let nextIndex := currentRoom.questionIndex + 1
    if nextIndex ≥ s.gameSettings.questionsPerGame then endGame s
    else
      let filteredQuestions := filterQuestions s.gameSettings mockQuestions
      let shuffled := shuffle filteredQuestions
      let nextQ := shuffled.get? (nextIndex % shuffled.length)
      let updatedRoom : GameRoom :=
        { currentRoom with questionIndex := nextIndex,
                           timeRemaining := s.gameSettings.timePerQuestion }
      { s with currentRoom := some updatedRoom,
               currentQuestion := nextQ,
               showResults := false }

/-- `setGameSettings` action: shallow merge `{ ...state.gameSettings, ...settings }`. -/
def setGameSettings (p : PartialGameSettings) (s : GameStoreState) : GameStoreState :=
  { s with gameSettings :=
      { questionsPerGame := p.questionsPerGame.getD s.gameSettings.questionsPerGame
        timePerQuestion := p.timePerQuestion.getD s.gameSettings.timePerQuestion
        difficulty := p.difficulty.getD s.gameSettings.difficulty
        categories := p.categories.getD s.gameSettings.categories } }

/-- `setError` action. -/
def setError (e : Option String) (s : GameStoreState) : GameStoreState :=
  { s with error := e }

/-- `setLoading` action. -/
def setLoading (b : Bool) (s : GameStoreState) : GameStoreState :=
  { s with isLoading := b }

/-! ### Concrete fixtures used by witnesses and counterexamples -/

/-- A sample user. -/
def u0 : User := { id := "u1", name := "Alice" }

/-- A sample question whose category is enabled by the default settings. -/
def q0 : Question :=
  { id := "q1", text := "Which bin?", options := ["a", "b", "c", "d"],
    correctAnswer := 2, category := "recycling", difficulty := "easy",
    points := 50 }

/-- State reached by: log in, create a room, start the game with the
one-question catalogue `[q0]` (identity shuffle). -/
def sPlay : GameStoreState :=
  startGame [q0] id (createRoom "r1" "Room" 4 false (setUser u0 initialState))

/-- The active room of `sPlay`. -/
def roomPlay : GameRoom :=
  { id := "r1", name := "Room", players := [u0], maxPlayers := 4,
    isPrivate := false, gameState := GameState.playing, questionIndex := 0,
    timeRemaining := 30, scores := [("u1", 0)] }

/-- A finished session: `sPlay` after `endGame`. -/
def sFin : GameStoreState := endGame sPlay

/-- The active room of `sFin`. -/
def roomFin : GameRoom :=
  { id := "r1", name := "Room", players := [u0], maxPlayers := 4,
    isPrivate := false, gameState := GameState.finished, questionIndex := 0,
    timeRemaining := 30, scores := [("u1", 0)] }

/-- The capacity invariant of §3: every room reachable through the store
(active slot and lobby list) has at most `maxPlayers` players. -/
def capInv (s : GameStoreState) : Prop :=
  (∀ r, s.currentRoom = some r → (r.players.length : Int) ≤ r.maxPlayers) ∧
  (∀ r ∈ s.availableRooms, (r.players.length : Int) ≤ r.maxPlayers)

/-- The `nextQuestion` state sequence used by the C4 witness:
`sPlay` advanced repeatedly with the one-question catalogue. -/
def c4Seq : Nat → GameStoreState
  | 0 => sPlay
  | k + 1 => nextQuestion [q0] id (c4Seq k)

/-! ### Helper lemmas -/

/-- `nextQuestion` never touches the settings. -/
theorem nextQuestion_gameSettings (mq : List Question)
    (sh : List Question → List Question) (s : GameStoreState) :
    (nextQuestion mq sh s).gameSettings = s.gameSettings := by
  rcases hcr : s.currentRoom with _ | room
  · simp [nextQuestion, hcr]
  · by_cases hge : room.questionIndex + 1 ≥ s.gameSettings.questionsPerGame <;>
      simp [nextQuestion, endGame, hcr, hge]

/-- A non-terminal `nextQuestion` bumps the index and keeps the
lifecycle state. -/
theorem nextQuestion_step (mq : List Question)
    (sh : List Question → List Question) (s : GameStoreState)
    (room : GameRoom) (hr : s.currentRoom = some room)
    (hlt : room.questionIndex + 1 < s.gameSettings.questionsPerGame) :
    ∃ r, (nextQuestion mq sh s).currentRoom = some r ∧
      r.questionIndex = room.questionIndex + 1 ∧
      r.gameState = room.gameState := by
  have hge : ¬ (room.questionIndex + 1 ≥ s.gameSettings.questionsPerGame) :=
    not_le.mpr hlt
  refine ⟨{ room with
      questionIndex := room.questionIndex + 1
      timeRemaining := s.gameSettings.timePerQuestion }, ?_, rfl, rfl⟩
  simp [nextQuestion, hr, hge]

/-- A terminal `nextQuestion` delegates to `endGame`: state `finished`,
index unchanged, question cleared. -/
theorem nextQuestion_finish (mq : List Question)
    (sh : List Question → List Question) (s : GameStoreState)
    (room : GameRoom) (hr : s.currentRoom = some room)
    (hge : s.gameSettings.questionsPerGame ≤ room.questionIndex + 1) :
    (∃ r, (nextQuestion mq sh s).currentRoom = some r ∧
      r.questionIndex = room.questionIndex ∧
      r.gameState = GameState.finished) ∧
    (nextQuestion mq sh s).currentQuestion = none := by
  constructor
  · exact ⟨{ room with gameState := GameState.finished },
      by simp [nextQuestion, endGame, hr, hge], rfl, rfl⟩
  · simp [nextQuestion, endGame, hr, hge]

/-- Reading back the key just written into a score map. -/
theorem scoreGet_scoreSet (sc : Scores) (k : String) (v : Int) :
    scoreGet (scoreSet sc k v) k = some v := by
  unfold scoreGet scoreSet
  by_cases hany : sc.any (fun p => p.1 == k) = true
  · rw [if_pos hany, List.find?_map]
    have hpred : ((fun p : String × Int => p.1 == k) ∘
        fun p => if p.1 == k then (k, v) else p) = fun p => p.1 == k := by
      funext p
      by_cases hp : (p.1 == k) = true <;> simp [Function.comp, hp]
    rw [hpred]
    obtain ⟨p0, hp0mem, hp0⟩ := List.any_eq_true.mp hany
    obtain ⟨p1, hfind⟩ :=
      Option.isSome_iff_exists.mp
        ((@List.find?_isSome _ sc (fun p => p.1 == k)).mpr ⟨p0, hp0mem, hp0⟩)
    have hp1 : (p1.1 == k) = true :=
      @List.find?_some _ (fun p => p.1 == k) p1 sc hfind
    rw [hfind]
    have hk : p1.1 = k := by simpa using hp1
    simp [hk]
  · rw [if_neg hany, List.find?_append]
    have hnone : sc.find? (fun p => p.1 == k) = none := by
      rw [List.find?_eq_none]
      intro x hx
      simp only [List.any_eq_true] at hany
      exact fun hxk => hany ⟨x, hx, hxk⟩
    rw [hnone]
    simp [List.find?]

/-- The full effect of a successful `submitAnswer` on the fields C9
talks about. -/
theorem submitAnswer_effect (a : Nat) (t : Int) (s : GameStoreState)
    (u : User) (q : Question) (room : GameRoom)
    (hu : s.currentUser = some u) (hq : s.currentQuestion = some q)
    (hr : s.currentRoom = some room) :
    (submitAnswer a t s).currentUser = some u ∧
    (submitAnswer a t s).currentQuestion = some q ∧
    (submitAnswer a t s).currentRoom = some { room with
      scores := scoreSet room.scores u.id
        ((scoreGet room.scores u.id).getD 0 +
          (if a == q.correctAnswer then q.points + max 0 ((30 - t) * 2) else 0)) } ∧
    (submitAnswer a t s).playerAnswers.length = s.playerAnswers.length + 1 := by
  refine ⟨?_, ?_, ?_, ?_⟩ <;> simp [submitAnswer, hu, hq, hr]

/-! ### Claim theorems -/

/-- C1: `submitAnswer` records correctness as `answerIndex = correctAnswer`,
a time bonus of `max 0 ((30 - timeSpent) * 2)` against the fixed 30-second
window, and points `question.points + bonus` when correct, `0` when
incorrect; `timeSpent ≥ 30` gives zero bonus, and points are non-negative
whenever `question.points` is. -/
theorem submitAnswer_scoring (a : Nat) (t : Int) (s : GameStoreState)
    (u : User) (q : Question) (room : GameRoom)
    (hu : s.currentUser = some u) (hq : s.currentQuestion = some q)
    (hr : s.currentRoom = some room) :
    ∃ ans : PlayerAnswer,
      (submitAnswer a t s).playerAnswers = s.playerAnswers ++ [ans] ∧
      ans.isCorrect = (a == q.correctAnswer) ∧
      ans.timeSpent = t ∧
      ans.points = (if a = q.correctAnswer then q.points + max 0 ((30 - t) * 2) else 0) ∧
      (30 ≤ t → ans.points = (if a = q.correctAnswer then q.points else 0)) ∧
      (a ≠ q.correctAnswer → ans.points = 0) ∧
      (0 ≤ q.points → 0 ≤ ans.points) := by
  refine ⟨{ playerId := u.id, answerIndex := a, timeSpent := t,
            isCorrect := a == q.correctAnswer,
            points := if a == q.correctAnswer then q.points + max 0 ((30 - t) * 2) else 0 },
    ?_, rfl, rfl, ?_, ?_, ?_, ?_⟩
  · simp [submitAnswer, hu, hq, hr]
  · by_cases hc : a = q.correctAnswer <;> simp [hc]
  · intro ht
    have hb : max 0 ((30 - t) * 2) = 0 := max_eq_left (by omega)
    by_cases hc : a = q.correctAnswer <;> simp [hc, hb]
  · intro hc
    simp [hc]
  · intro hp
    by_cases hc : a = q.correctAnswer <;> simp [hc]
    exact add_nonneg hp (le_max_left 0 _)

/-- C1 witness: the theorem instantiated at `sPlay` with answer 2 and
45 seconds spent. -/
theorem submitAnswer_scoring_witness :
    (sPlay.currentUser = some u0 ∧ sPlay.currentQuestion = some q0 ∧
      sPlay.currentRoom = some roomPlay) ∧
    (∃ ans : PlayerAnswer,
      (submitAnswer 2 45 sPlay).playerAnswers = sPlay.playerAnswers ++ [ans] ∧
      ans.isCorrect = (2 == q0.correctAnswer) ∧
      ans.timeSpent = 45 ∧
      ans.points = (if 2 = q0.correctAnswer then q0.points + max 0 ((30 - 45) * 2) else 0) ∧
      ((30 : Int) ≤ 45 → ans.points = (if 2 = q0.correctAnswer then q0.points else 0)) ∧
      (2 ≠ q0.correctAnswer → ans.points = 0) ∧
      (0 ≤ q0.points → 0 ≤ ans.points)) :=
  ⟨⟨by decide, by decide, by decide⟩,
    submitAnswer_scoring 2 45 sPlay u0 q0 roomPlay (by decide) (by decide) (by decide)⟩

/-- C5: every operation on absent prerequisites is a silent no-op that
returns the state record unchanged: `createRoom`/`joinRoom` without a
user, `joinRoom` without a matching room, `submitAnswer` without a user,
question or room, and `startGame`/`nextQuestion`/`endGame` without an
active room.  (All operations are total functions; none can raise.) -/
theorem noop_missing_prereqs (mq : List Question)
    (sh : List Question → List Question) (newId roomName : String)
    (maxP : Int) (priv : Bool) (roomId : String) (a : Nat) (t : Int)
    (s : GameStoreState) :
    (s.currentUser = none → createRoom newId roomName maxP priv s = s) ∧
    (s.currentUser = none → joinRoom roomId s = s) ∧
    (s.availableRooms.find? (fun r => r.id == roomId) = none → joinRoom roomId s = s) ∧
    ((s.currentUser = none ∨ s.currentQuestion = none ∨ s.currentRoom = none) →
      submitAnswer a t s = s) ∧
    (s.currentRoom = none →
      startGame mq sh s = s ∧ nextQuestion mq sh s = s ∧ endGame s = s) := by
  refine ⟨?_, ?_, ?_, ?_, ?_⟩
  · intro h; simp [createRoom, h]
  · intro h; simp [joinRoom, h]
  · intro h
    rcases hcu : s.currentUser with _ | u
    · simp [joinRoom, hcu]
    · simp [joinRoom, hcu, h]
  · intro h
    rcases hcu : s.currentUser with _ | u <;>
        rcases hcq : s.currentQuestion with _ | q <;>
        rcases hcr : s.currentRoom with _ | r <;>
        simp_all [submitAnswer]
  · intro h
    exact ⟨by simp [startGame, h], by simp [nextQuestion, h], by simp [endGame, h]⟩

/-- C5 witness: the theorem at the initial state, where every
prerequisite is absent. -/
theorem noop_missing_prereqs_witness :
    (initialState.currentUser = none → createRoom "r1" "Room" 4 false initialState = initialState) ∧
    (initialState.currentUser = none → joinRoom "r1" initialState = initialState) ∧
    (initialState.availableRooms.find? (fun r => r.id == "r1") = none →
      joinRoom "r1" initialState = initialState) ∧
    ((initialState.currentUser = none ∨ initialState.currentQuestion = none ∨
      initialState.currentRoom = none) → submitAnswer 0 10 initialState = initialState) ∧
    (initialState.currentRoom = none →
      startGame [q0] id initialState = initialState ∧
      nextQuestion [q0] id initialState = initialState ∧
      endGame initialState = initialState) :=
  noop_missing_prereqs [q0] id "r1" "Room" 4 false "r1" 0 10 initialState

/-- C8: `setGameSettings` merges shallowly: each absent field keeps its
prior value, each present field takes the given value, and no other part
of the state record changes. -/
theorem setGameSettings_merge (p : PartialGameSettings) (s : GameStoreState) :
    (p.questionsPerGame = none →
      (setGameSettings p s).gameSettings.questionsPerGame = s.gameSettings.questionsPerGame) ∧
    (∀ n, p.questionsPerGame = some n →
      (setGameSettings p s).gameSettings.questionsPerGame = n) ∧
    (p.timePerQuestion = none →
      (setGameSettings p s).gameSettings.timePerQuestion = s.gameSettings.timePerQuestion) ∧
    (∀ v, p.timePerQuestion = some v →
      (setGameSettings p s).gameSettings.timePerQuestion = v) ∧
    (p.difficulty = none →
      (setGameSettings p s).gameSettings.difficulty = s.gameSettings.difficulty) ∧
    (∀ d, p.difficulty = some d → (setGameSettings p s).gameSettings.difficulty = d) ∧
    (p.categories = none →
      (setGameSettings p s).gameSettings.categories = s.gameSettings.categories) ∧
    (∀ c, p.categories = some c → (setGameSettings p s).gameSettings.categories = c) ∧
    (setGameSettings p s).currentUser = s.currentUser ∧
    (setGameSettings p s).isAuthenticated = s.isAuthenticated ∧
    (setGameSettings p s).currentRoom = s.currentRoom ∧
    (setGameSettings p s).availableRooms = s.availableRooms ∧
    (setGameSettings p s).currentQuestion = s.currentQuestion ∧
    (setGameSettings p s).playerAnswers = s.playerAnswers ∧
    (setGameSettings p s).isLoading = s.isLoading ∧
    (setGameSettings p s).error = s.error ∧
    (setGameSettings p s).showResults = s.showResults := by
  refine ⟨?_, ?_, ?_, ?_, ?_, ?_, ?_, ?_, rfl, rfl, rfl, rfl, rfl, rfl, rfl, rfl, rfl⟩ <;>
    first
      | (intro h; simp [setGameSettings, h])
      | (intro v h; simp [setGameSettings, h])

/-- C8 witness: `setGameSettings {questionsPerGame := 5}` on the initial
state changes only that field. -/
theorem setGameSettings_merge_witness :
    ((PartialGameSettings.mk (some 5) none none none).questionsPerGame = none →
      (setGameSettings (PartialGameSettings.mk (some 5) none none none) initialState).gameSettings.questionsPerGame =
        initialState.gameSettings.questionsPerGame) ∧
    (∀ n, (PartialGameSettings.mk (some 5) none none none).questionsPerGame = some n →
      (setGameSettings (PartialGameSettings.mk (some 5) none none none) initialState).gameSettings.questionsPerGame = n) ∧
    ((PartialGameSettings.mk (some 5) none none none).timePerQuestion = none →
      (setGameSettings (PartialGameSettings.mk (some 5) none none none) initialState).gameSettings.timePerQuestion =
        initialState.gameSettings.timePerQuestion) ∧
    (∀ v, (PartialGameSettings.mk (some 5) none none none).timePerQuestion = some v →
      (setGameSettings (PartialGameSettings.mk (some 5) none none none) initialState).gameSettings.timePerQuestion = v) ∧
    ((PartialGameSettings.mk (some 5) none none none).difficulty = none →
      (setGameSettings (PartialGameSettings.mk (some 5) none none none) initialState).gameSettings.difficulty =
        initialState.gameSettings.difficulty) ∧
    (∀ d, (PartialGameSettings.mk (some 5) none none none).difficulty = some d →
      (setGameSettings (PartialGameSettings.mk (some 5) none none none) initialState).gameSettings.difficulty = d) ∧
    ((PartialGameSettings.mk (some 5) none none none).categories = none →
      (setGameSettings (PartialGameSettings.mk (some 5) none none none) initialState).gameSettings.categories =
        initialState.gameSettings.categories) ∧
    (∀ c, (PartialGameSettings.mk (some 5) none none none).categories = some c →
      (setGameSettings (PartialGameSettings.mk (some 5) none none none) initialState).gameSettings.categories = c) ∧
    (setGameSettings (PartialGameSettings.mk (some 5) none none none) initialState).currentUser = initialState.currentUser ∧
    (setGameSettings (PartialGameSettings.mk (some 5) none none none) initialState).isAuthenticated = initialState.isAuthenticated ∧
    (setGameSettings (PartialGameSettings.mk (some 5) none none none) initialState).currentRoom = initialState.currentRoom ∧
    (setGameSettings (PartialGameSettings.mk (some 5) none none none) initialState).availableRooms = initialState.availableRooms ∧
    (setGameSettings (PartialGameSettings.mk (some 5) none none none) initialState).currentQuestion = initialState.currentQuestion ∧
    (setGameSettings (PartialGameSettings.mk (some 5) none none none) initialState).playerAnswers = initialState.playerAnswers ∧
    (setGameSettings (PartialGameSettings.mk (some 5) none none none) initialState).isLoading = initialState.isLoading ∧
    (setGameSettings (PartialGameSettings.mk (some 5) none none none) initialState).error = initialState.error ∧
    (setGameSettings (PartialGameSettings.mk (some 5) none none none) initialState).showResults = initialState.showResults :=
  setGameSettings_merge (PartialGameSettings.mk (some 5) none none none) initialState

/-- C10: the in-game operations `startGame`, `submitAnswer`,
`nextQuestion` and `endGame` never write to `availableRooms`: the lobby
list (including any stale copy of the active room) is left exactly
unchanged. -/
theorem ingame_ops_frame_availableRooms (mq : List Question)
    (sh : List Question → List Question) (a : Nat) (t : Int)
    (s : GameStoreState) :
    (startGame mq sh s).availableRooms = s.availableRooms ∧
    (submitAnswer a t s).availableRooms = s.availableRooms ∧
    (nextQuestion mq sh s).availableRooms = s.availableRooms ∧
    (endGame s).availableRooms = s.availableRooms := by
  refine ⟨?_, ?_, ?_, ?_⟩
  · rcases hcr : s.currentRoom with _ | r <;> simp [startGame, hcr]
  · rcases hcu : s.currentUser with _ | u <;>
        rcases hcq : s.currentQuestion with _ | q <;>
        rcases hcr : s.currentRoom with _ | r <;>
        simp [submitAnswer, hcu, hcq, hcr]
  · rcases hcr : s.currentRoom with _ | r
    · simp [nextQuestion, hcr]
    · by_cases hge : r.questionIndex + 1 ≥ s.gameSettings.questionsPerGame <;>
        simp [nextQuestion, endGame, hcr, hge]
  · rcases hcr : s.currentRoom with _ | r <;> simp [endGame, hcr]

/-- C2 counterexample: `sFin` is reachable (log in, create, start, end)
and its active room is `finished`, yet `startGame` is not a no-op there —
it moves `gameState` back to `playing`, so the lifecycle is not
monotonic. -/
theorem startGame_after_finished_counterexample :
    sFin.currentRoom.map GameRoom.gameState = some GameState.finished ∧
    (startGame [q0] id sFin).currentRoom.map GameRoom.gameState = some GameState.playing ∧
    startGame [q0] id sFin ≠ sFin := by decide

/-- C2 amended: `nextQuestion` and `endGame` keep a `finished` room
`finished` (and `nextQuestion` past the last index on a quiescent
finished state is a genuine no-op), but `startGame` has no `gameState`
guard: on a finished active room it transitions back to `playing`, so
the lifecycle is monotonic only under `nextQuestion`/`endGame`. -/
theorem lifecycle_partial_monotonic (mq : List Question)
    (sh : List Question → List Question) (s : GameStoreState)
    (room : GameRoom) (hr : s.currentRoom = some room)
    (hf : room.gameState = GameState.finished) :
    (∃ r, (nextQuestion mq sh s).currentRoom = some r ∧
      r.gameState = GameState.finished) ∧
    (∃ r, (endGame s).currentRoom = some r ∧ r.gameState = GameState.finished) ∧
    (s.currentQuestion = none → s.showResults = true →
      s.gameSettings.questionsPerGame ≤ room.questionIndex + 1 →
      nextQuestion mq sh s = s) ∧
    (∃ r, (startGame mq sh s).currentRoom = some r ∧
      r.gameState = GameState.playing) := by
  have hroom : { room with gameState := GameState.finished } = room := by
    cases room
    simp_all
  refine ⟨?_, ?_, ?_, ?_⟩
  · by_cases hge : room.questionIndex + 1 ≥ s.gameSettings.questionsPerGame
    · exact ⟨{ room with gameState := GameState.finished },
        by simp [nextQuestion, endGame, hr, hge], rfl⟩
    · refine ⟨{ room with
          questionIndex := room.questionIndex + 1
          timeRemaining := s.gameSettings.timePerQuestion }, ?_, hf⟩
      simp [nextQuestion, hr, hge]
  · exact ⟨{ room with gameState := GameState.finished },
      by simp [endGame, hr], rfl⟩
  · intro hcq hsr hge
    have hend : endGame s = s := by
      simp only [endGame, hr, hroom]
      cases s
      simp_all
    simp [nextQuestion, hr, hge, hend]
  · refine ⟨{ room with
        gameState := GameState.playing
        questionIndex := 0
        timeRemaining := s.gameSettings.timePerQuestion }, ?_, rfl⟩
    simp [startGame, hr]

/-- C2 amended witness: the amended theorem at the reachable finished
state `sFin`. -/
theorem lifecycle_partial_monotonic_witness :
    (sFin.currentRoom = some roomFin ∧ roomFin.gameState = GameState.finished) ∧
    ((∃ r, (nextQuestion [q0] id sFin).currentRoom = some r ∧
        r.gameState = GameState.finished) ∧
     (∃ r, (endGame sFin).currentRoom = some r ∧ r.gameState = GameState.finished) ∧
     (sFin.currentQuestion = none → sFin.showResults = true →
       sFin.gameSettings.questionsPerGame ≤ roomFin.questionIndex + 1 →
       nextQuestion [q0] id sFin = sFin) ∧
     (∃ r, (startGame [q0] id sFin).currentRoom = some r ∧
       r.gameState = GameState.playing)) :=
  ⟨⟨by decide, rfl⟩,
    lifecycle_partial_monotonic [q0] id sFin roomFin (by decide) rfl⟩

/-- C3 counterexample: from a reachable state satisfying the capacity
invariant, `createRoom` with `maxPlayers = 0` creates a room with one
player and capacity 0, so `createRoom` does not establish the invariant
for every `maxPlayers` argument. -/
theorem createRoom_capacity_counterexample :
    capInv (setUser u0 initialState) ∧
    (createRoom "r1" "Room" 0 false (setUser u0 initialState)).currentRoom.map
        (fun r => (r.players.length, r.maxPlayers)) = some (1, 0) ∧
    ¬ capInv (createRoom "r1" "Room" 0 false (setUser u0 initialState)) := by
  refine ⟨⟨fun r h => ?_, fun r h => ?_⟩, by decide, fun hinv => ?_⟩
  · simp [setUser, initialState] at h
  · simp [setUser, initialState] at h
  · have h1 := hinv.1
      { id := "r1", name := "Room", players := [u0], maxPlayers := 0,
        isPrivate := false, gameState := GameState.waiting, questionIndex := 0,
        timeRemaining := 0, scores := [("u1", 0)] } (by decide)
    simp at h1

/-- C3 amended: every operation except `createRoom` preserves the
capacity invariant, `joinRoom` on a full room is a no-op on the whole
state, and `createRoom` establishes the invariant for the new
one-player room exactly when `maxPlayers ≥ 1` (nothing validates the
argument, so `maxPlayers ≤ 0` breaks it). -/
theorem capacity_invariant_amended (mq : List Question)
    (sh : List Question → List Question) (newId roomName : String)
    (maxP : Int) (priv : Bool) (roomId : String) (a : Nat) (t : Int)
    (u : User) (p : PartialGameSettings) (e : Option String) (b : Bool)
    (s : GameStoreState) (hinv : capInv s) :
    capInv (setUser u s) ∧ capInv (logout s) ∧ capInv (leaveRoom s) ∧
    capInv (joinRoom roomId s) ∧ capInv (startGame mq sh s) ∧
    capInv (submitAnswer a t s) ∧ capInv (nextQuestion mq sh s) ∧
    capInv (endGame s) ∧ capInv (setGameSettings p s) ∧
    capInv (setError e s) ∧ capInv (setLoading b s) ∧
    ((1 : Int) ≤ maxP → capInv (createRoom newId roomName maxP priv s)) ∧
    (∀ room, s.availableRooms.find? (fun r => r.id == roomId) = some room →
      (room.players.length : Int) ≥ room.maxPlayers → joinRoom roomId s = s) := by
  obtain ⟨hcur, havail⟩ := hinv
  refine ⟨⟨hcur, havail⟩, ?_, ?_, ?_, ?_, ?_, ?_, ?_, ⟨hcur, havail⟩, ⟨hcur, havail⟩,
    ⟨hcur, havail⟩, ?_, ?_⟩
  · exact ⟨fun r h => by simp [logout] at h, havail⟩
  · exact ⟨fun r h => by simp [leaveRoom] at h, havail⟩
  · rcases hcu : s.currentUser with _ | cu
    · simpa [joinRoom, hcu] using ⟨hcur, havail⟩
    · rcases hfind : s.availableRooms.find? (fun r => r.id == roomId) with _ | room
      · simpa [joinRoom, hcu, hfind] using ⟨hcur, havail⟩
      · by_cases hfull : (room.players.length : Int) ≥ room.maxPlayers
        · simpa [joinRoom, hcu, hfind, hfull] using ⟨hcur, havail⟩
        · have hmem : room ∈ s.availableRooms := List.mem_of_find?_eq_some hfind
          have hcap := havail room hmem
          have hlt : ((room.players ++ [cu]).length : Int) ≤ room.maxPlayers := by
            simp only [List.length_append, List.length_singleton]
            push_cast
            omega
          constructor
          · intro r h
            simp [joinRoom, hcu, hfind, hfull] at h
            subst h
            exact hlt
          · intro r h
            simp [joinRoom, hcu, hfind, hfull] at h
            rcases h with ⟨r0, hr0, hif⟩
            by_cases hid : r0.id = roomId
            · rw [if_pos (by simp [hid])] at hif
              subst hif
              exact hlt
            · rw [if_neg (by simp [hid])] at hif
              subst hif
              exact havail r0 hr0
  · rcases hcr : s.currentRoom with _ | room
    · simpa [startGame, hcr] using ⟨hcur, havail⟩
    · refine ⟨fun r h => ?_, fun r h => havail r (by simpa [startGame, hcr] using h)⟩
      simp [startGame, hcr] at h
      subst h
      exact hcur room hcr
  · rcases hcu : s.currentUser with _ | cu <;>
        rcases hcq : s.currentQuestion with _ | cq <;>
        rcases hcr : s.currentRoom with _ | room <;>
        exact ⟨by simp_all [submitAnswer], by simp_all [submitAnswer]⟩
  · rcases hcr : s.currentRoom with _ | room
    · simpa [nextQuestion, hcr] using ⟨hcur, havail⟩
    · by_cases hge : room.questionIndex + 1 ≥ s.gameSettings.questionsPerGame
      · refine ⟨fun r h => ?_, fun r h => ?_⟩
        · simp [nextQuestion, endGame, hcr, hge] at h
          subst h
          exact hcur room hcr
        · exact havail r (by simpa [nextQuestion, endGame, hcr, hge] using h)
      · refine ⟨fun r h => ?_, fun r h => ?_⟩
        · simp [nextQuestion, hcr, hge] at h
          subst h
          exact hcur room hcr
        · exact havail r (by simpa [nextQuestion, hcr, hge] using h)
  · rcases hcr : s.currentRoom with _ | room
    · simpa [endGame, hcr] using ⟨hcur, havail⟩
    · refine ⟨fun r h => ?_, fun r h => havail r (by simpa [endGame, hcr] using h)⟩
      simp [endGame, hcr] at h
      subst h
      exact hcur room hcr
  · intro hmax
    rcases hcu : s.currentUser with _ | cu
    · simpa [createRoom, hcu] using ⟨hcur, havail⟩
    · refine ⟨fun r h => ?_, fun r h => ?_⟩
      · simp [createRoom, hcu] at h
        subst h
        simpa using hmax
      · simp [createRoom, hcu] at h
        rcases h with h | h
        · exact havail r h
        · subst h
          simpa using hmax
  · intro room hfind hfull
    rcases hcu : s.currentUser with _ | cu
    · simp [joinRoom, hcu]
    · simp [joinRoom, hcu, hfind, hfull]

/-- C3 amended witness: the amended theorem applied right after login,
where the lobby is empty and no room is active. -/
theorem capacity_invariant_amended_witness :
    capInv (setUser u0 initialState) ∧
    (capInv (setUser u0 (setUser u0 initialState)) ∧
     capInv (logout (setUser u0 initialState)) ∧
     capInv (leaveRoom (setUser u0 initialState)) ∧
     capInv (joinRoom "r1" (setUser u0 initialState)) ∧
     capInv (startGame [q0] id (setUser u0 initialState)) ∧
     capInv (submitAnswer 0 10 (setUser u0 initialState)) ∧
     capInv (nextQuestion [q0] id (setUser u0 initialState)) ∧
     capInv (endGame (setUser u0 initialState)) ∧
     capInv (setGameSettings (PartialGameSettings.mk (some 5) none none none)
       (setUser u0 initialState)) ∧
     capInv (setError none (setUser u0 initialState)) ∧
     capInv (setLoading true (setUser u0 initialState)) ∧
     ((1 : Int) ≤ 4 →
       capInv (createRoom "r1" "Room" 4 false (setUser u0 initialState))) ∧
     (∀ room,
       (setUser u0 initialState).availableRooms.find? (fun r => r.id == "r1") =
         some room →
       (room.players.length : Int) ≥ room.maxPlayers →
       joinRoom "r1" (setUser u0 initialState) = setUser u0 initialState)) :=
  have hinv : capInv (setUser u0 initialState) :=
    ⟨fun r h => by simp [setUser, initialState] at h,
     fun r h => by simp [setUser, initialState] at h⟩
  ⟨hinv, capacity_invariant_amended [q0] id "r1" "Room" 4 false "r1" 0 10 u0
    (PartialGameSettings.mk (some 5) none none none) none true
    (setUser u0 initialState) hinv⟩

/-- C7 counterexample: the creator of a two-seat room joins their own
room; `joinRoom` has no membership check, so the player list becomes
`[u0, u0]` and user ids are no longer unique within the room. -/
theorem joinRoom_duplicate_counterexample :
    (createRoom "r1" "Room" 2 false (setUser u0 initialState)).currentRoom.map
        (fun r => r.players.map User.id) = some ["u1"] ∧
    (joinRoom "r1" (createRoom "r1" "Room" 2 false (setUser u0 initialState))).currentRoom.map
        (fun r => r.players.map User.id) = some ["u1", "u1"] ∧
    (joinRoom "r1" (createRoom "r1" "Room" 2 false (setUser u0 initialState))).currentRoom.map
        (fun r => decide (r.players.map User.id).Nodup) = some false := by decide

/-- C7 amended: when the target room exists and is below capacity,
`joinRoom` appends the current user unconditionally — a user whose id is
already on the roster is added a second time, violating id-uniqueness;
uniqueness is preserved only when the joining user's id is not already
among the room's player ids. -/
theorem joinRoom_membership_amended (roomId : String) (s : GameStoreState)
    (u : User) (room : GameRoom) (hu : s.currentUser = some u)
    (hfind : s.availableRooms.find? (fun r => r.id == roomId) = some room)
    (hcap : (room.players.length : Int) < room.maxPlayers) :
    (∃ r, (joinRoom roomId s).currentRoom = some r ∧
      r.players = room.players ++ [u]) ∧
    (u.id ∈ room.players.map User.id →
      ∃ r, (joinRoom roomId s).currentRoom = some r ∧
        ¬ (r.players.map User.id).Nodup) ∧
    (u.id ∉ room.players.map User.id → (room.players.map User.id).Nodup →
      ∃ r, (joinRoom roomId s).currentRoom = some r ∧
        (r.players.map User.id).Nodup) := by
  have hfull : ¬ ((room.players.length : Int) ≥ room.maxPlayers) := not_le.mpr hcap
  have hcr : (joinRoom roomId s).currentRoom =
      some { room with
        players := room.players ++ [u]
        scores := scoreSet room.scores u.id 0 } := by
    simp [joinRoom, hu, hfind, hfull]
  refine ⟨⟨_, hcr, rfl⟩, fun hmem => ⟨_, hcr, ?_⟩, fun hmem hnd => ⟨_, hcr, ?_⟩⟩
  · intro hnd
    have hnd' : ((room.players ++ [u]).map User.id).Nodup := hnd
    rw [List.map_append] at hnd'
    rcases List.nodup_append.mp hnd' with ⟨h1, h2, hdisj⟩
    exact hdisj hmem (by simp)
  · show ((room.players ++ [u]).map User.id).Nodup
    rw [List.map_append]
    refine List.nodup_append.mpr ⟨hnd, by simp, ?_⟩
    intro x hx hxu
    simp at hxu
    subst hxu
    exact hmem hx

/-- C7 amended witness: the creator rejoining their own two-seat room. -/
theorem joinRoom_membership_amended_witness :
    ((createRoom "r1" "Room" 2 false (setUser u0 initialState)).currentUser = some u0 ∧
     (createRoom "r1" "Room" 2 false (setUser u0 initialState)).availableRooms.find?
        (fun r => r.id == "r1") =
       some { id := "r1", name := "Room", players := [u0], maxPlayers := 2,
              isPrivate := false, gameState := GameState.waiting,
              questionIndex := 0, timeRemaining := 0, scores := [("u1", 0)] } ∧
     (([u0].length : Int) < 2)) ∧
    (∃ r, (joinRoom "r1" (createRoom "r1" "Room" 2 false (setUser u0 initialState))).currentRoom =
        some r ∧ r.players = [u0] ++ [u0]) :=
  ⟨⟨by decide, by decide, by decide⟩,
    (joinRoom_membership_amended "r1"
      (createRoom "r1" "Room" 2 false (setUser u0 initialState)) u0
      { id := "r1", name := "Room", players := [u0], maxPlayers := 2,
        isPrivate := false, gameState := GameState.waiting, questionIndex := 0,
        timeRemaining := 0, scores := [("u1", 0)] }
      (by decide) (by decide) (by decide)).1⟩

/-- C4: with `questionsPerGame = 10` and an active room at index 0 in
`playing`, the first 9 `nextQuestion` calls (each with its own catalogue
and shuffle) step the index 1..9 keeping `playing`; the 10th call
finishes the game, leaving the index at 9 and clearing the question. -/
theorem terminal_advance (mq : Nat → List Question)
    (sh : Nat → List Question → List Question) (seq : Nat → GameStoreState)
    (room : GameRoom) (h0 : (seq 0).currentRoom = some room)
    (hidx : room.questionIndex = 0) (hplay : room.gameState = GameState.playing)
    (hqpg : (seq 0).gameSettings.questionsPerGame = 10)
    (hstep : ∀ k, seq (k + 1) = nextQuestion (mq k) (sh k) (seq k)) :
    (∀ k, k ≤ 9 → ∃ r, (seq k).currentRoom = some r ∧
      r.questionIndex = k ∧ r.gameState = GameState.playing) ∧
    (∃ r, (seq 10).currentRoom = some r ∧ r.questionIndex = 9 ∧
      r.gameState = GameState.finished) ∧
    (seq 10).currentQuestion = none := by
  have hset : ∀ k, (seq k).gameSettings = (seq 0).gameSettings := by
    intro k
    induction k with
    | zero => rfl
    | succ n ih => rw [hstep n, nextQuestion_gameSettings, ih]
  have hmain : ∀ k, k ≤ 9 → ∃ r, (seq k).currentRoom = some r ∧
      r.questionIndex = k ∧ r.gameState = GameState.playing := by
    intro k
    induction k with
    | zero => exact fun _ => ⟨room, h0, hidx, hplay⟩
    | succ n ih =>
      intro hn
      obtain ⟨r, hr, hri, hrg⟩ := ih (by omega)
      have hlt : r.questionIndex + 1 < (seq n).gameSettings.questionsPerGame := by
        rw [hset n, hqpg, hri]
        omega
      obtain ⟨r', hr', hri', hrg'⟩ := nextQuestion_step (mq n) (sh n) (seq n) r hr hlt
      exact ⟨r', by rw [hstep n]; exact hr', by rw [hri', hri],
        by rw [hrg', hrg]⟩
  obtain ⟨r9, hr9, hri9, _⟩ := hmain 9 (by omega)
  have hge : (seq 9).gameSettings.questionsPerGame ≤ r9.questionIndex + 1 := by
    rw [hset 9, hqpg, hri9]
  obtain ⟨⟨rf, hrf, hrif, hrgf⟩, hcqf⟩ :=
    nextQuestion_finish (mq 9) (sh 9) (seq 9) r9 hr9 hge
  exact ⟨hmain,
    ⟨rf, by rw [hstep 9]; exact hrf, by rw [hrif, hri9], hrgf⟩,
    by rw [hstep 9]; exact hcqf⟩

/-- C4 witness: the concrete sequence `c4Seq` starting from `sPlay`. -/
theorem terminal_advance_witness :
    ((c4Seq 0).currentRoom = some roomPlay ∧ roomPlay.questionIndex = 0 ∧
      roomPlay.gameState = GameState.playing ∧
      (c4Seq 0).gameSettings.questionsPerGame = 10 ∧
      (∀ k, c4Seq (k + 1) = nextQuestion [q0] id (c4Seq k))) ∧
    ((∀ k, k ≤ 9 → ∃ r, (c4Seq k).currentRoom = some r ∧
        r.questionIndex = k ∧ r.gameState = GameState.playing) ∧
     (∃ r, (c4Seq 10).currentRoom = some r ∧ r.questionIndex = 9 ∧
        r.gameState = GameState.finished) ∧
     (c4Seq 10).currentQuestion = none) :=
  ⟨⟨by decide, rfl, rfl, by decide, fun k => rfl⟩,
    terminal_advance (fun _ => [q0]) (fun _ => id) c4Seq roomPlay
      (by decide) rfl rfl (by decide) (fun k => rfl)⟩

/-- C6: if the difficulty/category filter leaves no questions, the
lifecycle still proceeds (the operations are total): `startGame` enters
`playing` with an absent current question, and a non-terminal
`nextQuestion` bumps the index and yields an absent question.  The
`shuffle` hypothesis states that the randomized sort is a permutation of
its input. -/
theorem empty_pool_safe (mq : List Question)
    (sh : List Question → List Question)
    (hperm : ∀ l, List.Perm (sh l) l) (s : GameStoreState) (room : GameRoom)
    (hr : s.currentRoom = some room)
    (hempty : filterQuestions s.gameSettings mq = []) :
    ((startGame mq sh s).currentQuestion = none ∧
      ∃ r, (startGame mq sh s).currentRoom = some r ∧
        r.gameState = GameState.playing) ∧
    (room.questionIndex + 1 < s.gameSettings.questionsPerGame →
      (nextQuestion mq sh s).currentQuestion = none ∧
      ∃ r, (nextQuestion mq sh s).currentRoom = some r ∧
        r.questionIndex = room.questionIndex + 1) := by
  have hshuf : sh (filterQuestions s.gameSettings mq) = [] := by
    rw [hempty]
    exact (hperm []).eq_nil
  refine ⟨⟨?_, ?_⟩, fun hlt => ⟨?_, ?_⟩⟩
  · simp [startGame, hr, hshuf]
  · refine ⟨{ room with
        gameState := GameState.playing
        questionIndex := 0
        timeRemaining := s.gameSettings.timePerQuestion }, ?_, rfl⟩
    simp [startGame, hr]
  · have hge : ¬ (room.questionIndex + 1 ≥ s.gameSettings.questionsPerGame) :=
      not_le.mpr hlt
    simp [nextQuestion, hr, hge, hshuf]
  · have hge : ¬ (room.questionIndex + 1 ≥ s.gameSettings.questionsPerGame) :=
      not_le.mpr hlt
    refine ⟨{ room with
        questionIndex := room.questionIndex + 1
        timeRemaining := s.gameSettings.timePerQuestion }, ?_, rfl⟩
    simp [nextQuestion, hr, hge]

/-- C6 witness: a playing room whose settings enable no category, so the
filtered pool is empty; the identity shuffle is a permutation. -/
theorem empty_pool_safe_witness :
    ((∀ l : List Question, List.Perm (id l) l) ∧
      (setGameSettings (PartialGameSettings.mk none none none (some [])) sPlay).currentRoom =
        some roomPlay ∧
      filterQuestions
        (setGameSettings (PartialGameSettings.mk none none none (some [])) sPlay).gameSettings
        [q0] = []) ∧
    (((startGame [q0] id
        (setGameSettings (PartialGameSettings.mk none none none (some [])) sPlay)).currentQuestion = none ∧
      ∃ r, (startGame [q0] id
        (setGameSettings (PartialGameSettings.mk none none none (some [])) sPlay)).currentRoom =
          some r ∧ r.gameState = GameState.playing) ∧
     (roomPlay.questionIndex + 1 <
        (setGameSettings (PartialGameSettings.mk none none none (some [])) sPlay).gameSettings.questionsPerGame →
      (nextQuestion [q0] id
        (setGameSettings (PartialGameSettings.mk none none none (some [])) sPlay)).currentQuestion = none ∧
      ∃ r, (nextQuestion [q0] id
        (setGameSettings (PartialGameSettings.mk none none none (some [])) sPlay)).currentRoom =
          some r ∧ r.questionIndex = roomPlay.questionIndex + 1)) :=
  ⟨⟨fun l => List.Perm.refl l, by decide, by decide⟩,
    empty_pool_safe [q0] id (fun l => List.Perm.refl l)
      (setGameSettings (PartialGameSettings.mk none none none (some [])) sPlay)
      roomPlay (by decide) (by decide)⟩

/-- C9: `submitAnswer` has no once-per-question guard: every successful
call appends one `PlayerAnswer` and adds the computed points to the
caller's score entry (absent entry read as 0); two identical calls
append two answers and add the points twice. -/
theorem submitAnswer_no_guard (a : Nat) (t : Int) (s : GameStoreState)
    (u : User) (q : Question) (room : GameRoom)
    (hu : s.currentUser = some u) (hq : s.currentQuestion = some q)
    (hr : s.currentRoom = some room) :
    (submitAnswer a t s).playerAnswers.length = s.playerAnswers.length + 1 ∧
    (∃ r1, (submitAnswer a t s).currentRoom = some r1 ∧
      scoreGet r1.scores u.id =
        some ((scoreGet room.scores u.id).getD 0 +
          (if a == q.correctAnswer then q.points + max 0 ((30 - t) * 2) else 0))) ∧
    (submitAnswer a t (submitAnswer a t s)).playerAnswers.length =
      s.playerAnswers.length + 2 ∧
    (∃ r2, (submitAnswer a t (submitAnswer a t s)).currentRoom = some r2 ∧
      scoreGet r2.scores u.id =
        some ((scoreGet room.scores u.id).getD 0 +
          (if a == q.correctAnswer then q.points + max 0 ((30 - t) * 2) else 0) +
          (if a == q.correctAnswer then q.points + max 0 ((30 - t) * 2) else 0))) := by
  obtain ⟨hu1, hq1, hr1, hlen1⟩ := submitAnswer_effect a t s u q room hu hq hr
  obtain ⟨hu2, hq2, hr2, hlen2⟩ :=
    submitAnswer_effect a t (submitAnswer a t s) u q _ hu1 hq1 hr1
  refine ⟨hlen1, ⟨_, hr1, ?_⟩, by omega, ⟨_, hr2, ?_⟩⟩
  · exact scoreGet_scoreSet room.scores u.id _
  · show scoreGet (scoreSet (scoreSet room.scores u.id _) u.id _) u.id = _
    rw [scoreGet_scoreSet]
    rw [scoreGet_scoreSet]
    simp

/-- C9 witness: answering `sPlay`'s question correctly twice. -/
theorem submitAnswer_no_guard_witness :
    (sPlay.currentUser = some u0 ∧ sPlay.currentQuestion = some q0 ∧
      sPlay.currentRoom = some roomPlay) ∧
    ((submitAnswer 2 10 sPlay).playerAnswers.length = sPlay.playerAnswers.length + 1 ∧
     (∃ r1, (submitAnswer 2 10 sPlay).currentRoom = some r1 ∧
       scoreGet r1.scores u0.id =
         some ((scoreGet roomPlay.scores u0.id).getD 0 +
           (if 2 == q0.correctAnswer then q0.points + max 0 ((30 - 10) * 2) else 0))) ∧
     (submitAnswer 2 10 (submitAnswer 2 10 sPlay)).playerAnswers.length =
       sPlay.playerAnswers.length + 2 ∧
     (∃ r2, (submitAnswer 2 10 (submitAnswer 2 10 sPlay)).currentRoom = some r2 ∧
       scoreGet r2.scores u0.id =
         some ((scoreGet roomPlay.scores u0.id).getD 0 +
           (if 2 == q0.correctAnswer then q0.points + max 0 ((30 - 10) * 2) else 0) +
           (if 2 == q0.correctAnswer then q0.points + max 0 ((30 - 10) * 2) else 0)))) :=
  ⟨⟨by decide, by decide, by decide⟩,
    submitAnswer_no_guard 2 10 sPlay u0 q0 roomPlay (by decide) (by decide) (by decide)⟩

end GameStore
